import Mathlib

/-
Verification development for the codellab-editor collaboration backend.

The definitions below are a shallow embedding of the Go sources:
  pkg/room/room.go      (Room actor loop, broadcast paths, room registry)
  pkg/handlers/handlers.go (connection pumps, message dispatch, mutation pipeline)
  pkg/db/document.go    (document data model)

Modelling conventions:
  * Go strings indexed by byte are modelled as List Char; Go slice
    expressions s[:i] and s[i:] are partial (they panic outside bounds),
    so they are modelled with Option where a panic is reachable.
  * A Go channel of capacity 256 is modelled as a List of pending frames
    plus a closed flag; a non-blocking send (select with default) either
    appends or falls to the default branch, a plain send blocks on a full
    buffer, and any send on a closed channel panics.
  * json.Marshal of the outbound envelopes is abstracted: frames are kept
    as structured values (the Frame inductive) rather than byte strings.
  * time.Time fields (CreatedAt, UpdatedAt) and the transport handle are
    omitted; no claim mentions them.
-/

namespace Codellab

/-- Mirrors db.Document (pkg/db/document.go); the two timestamp fields are
omitted, content is the byte sequence of the Go string. -/
structure Document where
  id : String
  title : String
  content : List Char
  language : String
  version : Nat
deriving DecidableEq, Repr

/-- Mirrors room.Operation (pkg/room/room.go). Position and Length are Go
ints, hence Int here; ClientID is the server-generated connection id the
handler stamps in, Timestamp the server-side UnixNano stamp. -/
structure Operation where
  type : String
  position : Int
  content : List Char
  length : Int
  clientID : String
  timestamp : Int
deriving DecidableEq, Repr

/-- Identity pair used in user_joined / user_left / init_ok envelopes. -/
structure User where
  id : String
  username : String
deriving DecidableEq, Repr

/-- Mirrors room.MetadataUpdate as built in handlers.handleDocUpdate. -/
structure MetadataUpdate where
  type : String
  title : String
  language : String
  clientID : String
  timestamp : Int
deriving DecidableEq, Repr

/-- Mirrors room.Snapshot as used in handlers.handleSnapshot: full content,
the display identity of the submitting client, the user list copied from
the inbound message, and the correlation sequence number. -/
structure Snapshot where
  type : String
  content : List Char
  clientID : String
  users : List User
  seq : Int
  timestamp : Int
deriving DecidableEq, Repr

/-- Mirrors room.Ack as built in handlers.handleSnapshot. -/
structure Ack where
  type : String
  event : String
  seq : Int
  timestamp : Int
deriving DecidableEq, Repr

/-- Outbound frame envelopes; each constructor stands for the JSON object
the Go code marshals onto a client Send channel. -/
inductive Frame where
  | userJoined (u : User)
  | userLeft (u : User)
  | initOk (u : User)
  | operationFrame (op : Operation)
  | metadataFrame (u : MetadataUpdate)
  | snapshotFrame (s : Snapshot)
  | ackFrame (a : Ack)
  | pong
deriving DecidableEq, Repr

/-- Returns true exactly on snapshot frames. -/
def Frame.isSnapshot : Frame → Bool
  | .snapshotFrame _ => true
  | _ => false

/-- Mirrors room.Client: id is the server-generated uuid from
HandleWebSocket, clientID the user-chosen display identity bound by init,
username the display name. Conn and Room references are not part of the
value; the Send channel is carried by Member. -/
structure Client where
  id : String
  clientID : String
  username : String
deriving DecidableEq, Repr

/-- Capacity of every client Send channel (make(chan []byte, 256)). -/
def sendCap : Nat := 256

/-- One membership entry of a room: the client together with the state of
its Send channel (pending buffer and closed flag). -/
structure Member where
  client : Client
  send : List Frame
  sendClosed : Bool
deriving DecidableEq, Repr

/-- Returns true when the Send buffer of the member can accept one more
frame without blocking. -/
def hasSpace (m : Member) : Bool := m.send.length < sendCap

/-- Appends one frame to the Send buffer of a member. -/
def enq (msg : Frame) (m : Member) : Member := { m with send := m.send ++ [msg] }

/-- Outcome of a plain (blocking) Go channel send. -/
inductive ChanSend where
  | delivered (q : List Frame)
  | blocked
  | panicked
deriving DecidableEq, Repr

/-- Semantics of a plain Go channel send ch <- msg on a buffered channel:
panics when closed, waits when the buffer is full, appends otherwise. -/
def chanSendBlocking (closed : Bool) (q : List Frame) (msg : Frame) : ChanSend :=
  if closed then .panicked
  else if q.length < sendCap then .delivered (q ++ [msg])
  else .blocked

/-- Mirrors the ping case of handlers.readPump: the application-level pong
reply is a plain channel send on the client Send channel, c.Send <- pong. -/
def pongReply (m : Member) : ChanSend :=
  chanSendBlocking m.sendClosed m.send Frame.pong

/-- Go slice expression s[:i] on a string: defined for 0 ≤ i ≤ len s,
panics (none) otherwise. -/
def goSliceTo (s : List Char) (i : Int) : Option (List Char) :=
  if 0 ≤ i ∧ i ≤ (s.length : Int) then some (s.take i.toNat) else none

/-- Go slice expression s[i:] on a string: defined for 0 ≤ i ≤ len s,
panics (none) otherwise. -/
def goSliceFrom (s : List Char) (i : Int) : Option (List Char) :=
  if 0 ≤ i ∧ i ≤ (s.length : Int) then some (s.drop i.toNat) else none

/-- Content transformation of handlers.updateDocumentContent: the switch
on the operation type. Insert appends whenever position ≥ len(content) and
splices otherwise; delete splices out the range only when
position+length ≤ len(content); retain and unknown types leave the content
alone. none models a Go slice-bounds panic (negative position etc.). -/
def contentAfter (content : List Char) (op : Operation) : Option (List Char) :=
  if op.type = "insert" then
    if (content.length : Int) ≤ op.position then some (content ++ op.content)
    else
      match goSliceTo content op.position, goSliceFrom content op.position with
      | some pre, some post => some (pre ++ op.content ++ post)
      | _, _ => none
  else if op.type = "delete" then
    if op.position + op.length ≤ (content.length : Int) then
      match goSliceTo content op.position, goSliceFrom content (op.position + op.length) with
      | some pre, some post => some (pre ++ post)
      | _, _ => none
    else some content
  else some content

/-- Result of a document mutation: the new cached document, or a panic. -/
inductive MutResult where
  | ok (d : Document)
  | panicked
deriving DecidableEq, Repr

/-- Mirrors handlers.updateDocumentContent: applies the content switch and
then increments the version counter unconditionally (the Go code runs
room.Document.Version++ after the switch on every non-panicking path,
accepted edit or not). Content edits are deliberately not persisted. -/
def updateDocumentContent (doc : Document) (op : Operation) : MutResult :=
  match contentAfter doc.content op with
  | some c => .ok { doc with content := c, version := doc.version + 1 }
  | none => .panicked

/-- Mirrors room.Room: the cached document, the membership map (modelled
as a list of entries keyed by client id) and the pending contents of the
Broadcast channel. The Register and Unregister channels are modelled by
the step functions below. -/
structure Room where
  id : String
  document : Document
  clients : List Member
  broadcastQ : List Frame
deriving DecidableEq, Repr

/-- Room together with the history of Send channels closed so far (each
entry is the id of the client owning the closed channel); double closes
would show up as duplicates in this list. -/
structure RoomState where
  room : Room
  closedIds : List String
deriving DecidableEq, Repr

/-- Go map insert r.Clients[client.ID] = client: replaces the entry with
the same key when present, appends otherwise. -/
def insertMember (ms : List Member) (m : Member) : List Member :=
  if ms.any (fun x => x.client.id == m.client.id) then
    ms.map (fun x => if x.client.id == m.client.id then m else x)
  else ms ++ [m]

/-- Register case of Room.run: the client is put into the membership map
(its Send channel is the fresh, open, empty channel made by
HandleWebSocket), then broadcastUserJoined pushes a user_joined envelope
onto the room Broadcast channel. No snapshot is produced anywhere on this
path. -/
def registerStep (s : RoomState) (c : Client) : RoomState :=
  let room1 := { s.room with clients := insertMember s.room.clients { client := c, send := [], sendClosed := false } }
  { room := { room1 with broadcastQ := room1.broadcastQ ++ [Frame.userJoined { id := c.id, username := c.username }] },
    closedIds := s.closedIds }

/-- Unregister case of Room.run: when the id is present the entry is
removed and the Send channel of the message client is closed; in both
cases broadcastUserLeft then pushes a user_left envelope onto the room
Broadcast channel (the Go call sits outside the presence check). -/
def unregisterStep (s : RoomState) (c : Client) : RoomState :=
  let present := s.room.clients.any (fun x => x.client.id == c.id)
  let room1 :=
    if present then { s.room with clients := s.room.clients.filter (fun x => !(x.client.id == c.id)) }
    else s.room
  { room := { room1 with broadcastQ := room1.broadcastQ ++ [Frame.userLeft { id := c.id, username := c.username }] },
    closedIds := if present then s.closedIds ++ [c.id] else s.closedIds }

/-- Broadcast case of Room.run, one membership sweep: for every member a
non-blocking send is attempted; the default branch closes the Send
channel and deletes the member. A send on an already closed channel would
panic (none). Returns the surviving membership and the ids of the
channels closed during the sweep. -/
def broadcastFrame (msg : Frame) : List Member → Option (List Member × List String)
  | [] => some ([], [])
  | m :: rest =>
    if m.sendClosed then none
    else if hasSpace m then
      (broadcastFrame msg rest).map (fun p => (enq msg m :: p.1, p.2))
    else
      (broadcastFrame msg rest).map (fun p => (p.1, m.client.id :: p.2))

/-- Mirrors Room.BroadcastOperation and the other exclude-the-originator
broadcast senders: identical to the Broadcast sweep except that the member
whose id equals excludeClientID is skipped untouched. -/
def broadcastExcept (msg : Frame) (excludeClientID : String) : List Member → Option (List Member × List String)
  | [] => some ([], [])
  | m :: rest =>
    if m.client.id == excludeClientID then
      (broadcastExcept msg excludeClientID rest).map (fun p => (m :: p.1, p.2))
    else if m.sendClosed then none
    else if hasSpace m then
      (broadcastExcept msg excludeClientID rest).map (fun p => (enq msg m :: p.1, p.2))
    else
      (broadcastExcept msg excludeClientID rest).map (fun p => (p.1, m.client.id :: p.2))

/-- Modelled from the spec: Room.SendAck is called by handlers.go but the
method itself is absent from src/pkg/room/room.go; per the spec the Ack is
routed back to the originating connection only, with the non-blocking
drop-and-kill enqueue policy shared by all room senders. -/
def sendAck (msg : Frame) (targetClientID : String) : List Member → Option (List Member × List String)
  | [] => some ([], [])
  | m :: rest =>
    if m.client.id == targetClientID then
      if m.sendClosed then none
      else if hasSpace m then
        (sendAck msg targetClientID rest).map (fun p => (enq msg m :: p.1, p.2))
      else
        (sendAck msg targetClientID rest).map (fun p => (p.1, m.client.id :: p.2))
    else
      (sendAck msg targetClientID rest).map (fun p => (m :: p.1, p.2))

/-- Processes the next pending frame of the room Broadcast channel, if
any, through the Broadcast sweep. -/
def deliverStep (s : RoomState) : Option RoomState :=
  match s.room.broadcastQ with
  | [] => some s
  | msg :: rest =>
    (broadcastFrame msg s.room.clients).map (fun p =>
      { room := { s.room with clients := p.1, broadcastQ := rest }, closedIds := s.closedIds ++ p.2 })

/-- Room.BroadcastOperation applied to the room state: the operation is
wrapped in an operation envelope and swept over the membership excluding
the originator, with drop-and-kill on full queues. -/
def broadcastOpStep (s : RoomState) (op : Operation) (excludeClientID : String) : Option RoomState :=
  (broadcastExcept (Frame.operationFrame op) excludeClientID s.room.clients).map (fun p =>
    { room := { s.room with clients := p.1 }, closedIds := s.closedIds ++ p.2 })

/-- Sequential processing of a list of pending broadcasts, accumulating
the killed ids. -/
def broadcastMany : List Frame → List Member → Option (List Member × List String)
  | [], ms => some (ms, [])
  | msg :: rest, ms =>
    match broadcastFrame msg ms with
    | none => none
    | some p =>
      match broadcastMany rest p.1 with
      | none => none
      | some q => some (q.1, p.2 ++ q.2)

/-- Freshness of a connection handed to Register: HandleWebSocket creates
every client with a brand new uuid and a brand new Send channel, so its id
collides neither with a current member nor with a closed channel. -/
def FreshFor (s : RoomState) (c : Client) : Prop :=
  (∀ m ∈ s.room.clients, m.client.id ≠ c.id) ∧ c.id ∉ s.closedIds

/-- Room state as built by RoomManager.GetOrCreateRoom: empty membership,
empty Broadcast channel, no channel ever closed. -/
def initialState (roomID : String) (doc : Document) : RoomState :=
  { room := { id := roomID, document := doc, clients := [], broadcastQ := [] }, closedIds := [] }

/-- Reachability of a room state from creation under the membership and
broadcast traffic of the actor loop plus the direct BroadcastOperation
calls issued by read pumps. -/
inductive Reachable : RoomState → Prop where
  | init (roomID : String) (doc : Document) : Reachable (initialState roomID doc)
  | register {s : RoomState} {c : Client} : Reachable s → FreshFor s c → Reachable (registerStep s c)
  | unregister {s : RoomState} (c : Client) : Reachable s → Reachable (unregisterStep s c)
  | deliver {s t : RoomState} : Reachable s → deliverStep s = some t → Reachable t
  | broadcastOp {s t : RoomState} (op : Operation) (excl : String) :
      Reachable s → broadcastOpStep s op excl = some t → Reachable t

/-- Payload of an inbound operation frame after json parsing: each field
of msg.operation is none when the key is missing or its value has the
wrong JSON type (the Go code reads them with unchecked type assertions,
so a none field means panic). Numbers arrive as float64 and are converted with
int(...); the model keeps the converted integer. -/
structure OperationPayload where
  type : Option String
  position : Option Int
  content : Option (List Char)
  length : Option Int
deriving DecidableEq, Repr

/-- Outcome of handlers.handleOperation on one inbound frame. -/
inductive OpHandlerResult where
  | ok (s : RoomState) (op : Operation)
  | droppedFrame
  | panicked
deriving DecidableEq, Repr

/-- Mirrors handlers.handleOperation: a missing or non-object operation
field drops the frame (logged return); otherwise the four sub-fields are
read with unchecked type assertions, so any missing or mistyped sub-field
panics. The built operation echoes the payload fields and is stamped with
the server-generated connection id and the server-side timestamp, then
BroadcastOperation runs (excluding the originator) and finally
updateDocumentContent mutates the cached document. -/
def handleOperation (s : RoomState) (c : Client) (payload : Option OperationPayload) (now : Int) : OpHandlerResult :=
  match payload with
  | none => .droppedFrame
  | some p =>
    match p.type, p.position, p.content, p.length with
    | some t, some pos, some cont, some len =>
      let op : Operation :=
        { type := t, position := pos, content := cont, length := len, clientID := c.id, timestamp := now }
      match broadcastOpStep s op c.id with
      | none => .panicked
      | some s1 =>
        match updateDocumentContent s1.room.document op with
        | .ok d => .ok { s1 with room := { s1.room with document := d } } op
        | .panicked => .panicked
    | _, _, _, _ => .panicked

/-- Mirrors handlers.handleInit. The id and username fields are read with
comma-ok assertions, which yield the zero value "" on a missing or
mistyped field; the validity check only logs and does not return, so the
client identity is overwritten and the init-ok user value is built and
handed to the (broadcast) sender in every case. The returned pair is the
mutated client and that user value. -/
def handleInit (c : Client) (idField usernameField : Option String) : Client × User :=
  let id := idField.getD ""
  let username := usernameField.getD ""
  ({ c with clientID := id, username := username }, { id := id, username := username })

/-- Mirrors db.DocumentUpdate: pointer fields distinguish absent from
empty. -/
structure DocumentUpdate where
  title : Option String
  content : Option (List Char)
  language : Option String
deriving DecidableEq, Repr

/-- Persistence gateway behaviour for UpdateDocument calls: none models a
failed call (the Go error branch), some the updated stored document. -/
def Gateway : Type := String → DocumentUpdate → Option Document

/-- Mirrors handlers.updateDocumentMetadata: the cached version counter is
incremented, then UpdateDocument is called with title, the cached content
and language; a failure is only logged and the returned document is
discarded on success as well, so the cached room state is the same either
way. -/
def updateDocumentMetadata (gw : Gateway) (r : Room) (u : MetadataUpdate) : Room :=
  let r1 := { r with document := { r.document with version := r.document.version + 1 } }
  match gw r.id { title := some u.title, content := some r1.document.content, language := some u.language } with
  | none => r1
  | some _ => r1

/-- Mirrors handlers.updateDocumentSnapshot: the cached version counter is
incremented, then UpdateDocument is called with the snapshot content; the
failure branch only logs, success discards the returned document. -/
def updateDocumentSnapshot (gw : Gateway) (r : Room) (snap : Snapshot) : Room :=
  let r1 := { r with document := { r.document with version := r.document.version + 1 } }
  match gw r.id { title := none, content := some snap.content, language := none } with
  | none => r1
  | some _ => r1

/-- Outcome of the metadata and snapshot pipelines on one inbound frame. -/
inductive PipelineResult where
  | ok (s : RoomState)
  | droppedFrame
  | panicked
deriving DecidableEq, Repr

/-- Mirrors handlers.handleDocUpdate: a missing or mistyped title or
language drops the frame; otherwise the cached title and language are
replaced, the metadata envelope is broadcast to every member except the
originator (Room.BroadcastMetadataUpdate is absent from
src/pkg/room/room.go; modelled from the spec as the standard
exclude-the-originator sweep), and updateDocumentMetadata runs last. -/
def handleDocUpdate (gw : Gateway) (s : RoomState) (c : Client)
    (titleField languageField : Option String) (now : Int) : PipelineResult :=
  match titleField, languageField with
  | some title, some language =>
    let u : MetadataUpdate :=
      { type := "document_update", title := title, language := language, clientID := c.id, timestamp := now }
    let room1 := { s.room with document := { s.room.document with title := title, language := language } }
    match broadcastExcept (Frame.metadataFrame u) c.id room1.clients with
    | none => .panicked
    | some p =>
      let room2 := { room1 with clients := p.1 }
      .ok { room := updateDocumentMetadata gw room2 u, closedIds := s.closedIds ++ p.2 }
  | _, _ => .droppedFrame

/-- Mirrors handlers.handleSnapshot on an already parsed snapshot message:
the user list is copied, the outbound snapshot carries the display
identity of the submitter and a server timestamp, the cached content is
replaced, updateDocumentSnapshot persists best-effort, the snapshot is
broadcast to every member except the originator
(Room.BroadcastSnapshotUpdate is absent from src/pkg/room/room.go;
modelled from the spec as the standard exclude-the-originator sweep), and
finally an ack naming the inbound seq is routed to the originator only. -/
def handleSnapshot (gw : Gateway) (s : RoomState) (c : Client) (msg : Snapshot) (now : Int) : PipelineResult :=
  let snap : Snapshot :=
    { type := "snapshot", content := msg.content, clientID := c.clientID, users := msg.users,
      seq := msg.seq, timestamp := now }
  let room1 := { s.room with document := { s.room.document with content := msg.content } }
  let room2 := updateDocumentSnapshot gw room1 snap
  match broadcastExcept (Frame.snapshotFrame snap) c.id room2.clients with
  | none => .panicked
  | some p =>
    match sendAck (Frame.ackFrame { type := "ack", event := "snapshot", seq := msg.seq, timestamp := now }) c.id p.1 with
    | none => .panicked
    | some q =>
      .ok { room := { room2 with clients := q.1 }, closedIds := s.closedIds ++ p.2 ++ q.2 }

/-- Behaviour of the persistence gateway during room creation: the result
of GetDocument for each key, and whether the INSERT of CreateDocument
succeeds. -/
structure StoreBehavior where
  getDoc : String → Option Document
  createSucceeds : Bool

/-- Mirrors db.PostgresDocumentStore.CreateDocument: on success the stored
document carries the freshly generated uuid, the given title and content,
empty language and version 1. -/
def createDocument (sb : StoreBehavior) (title : String) (content : List Char) (freshId : String) : Option Document :=
  if sb.createSucceeds then
    some { id := freshId, title := title, content := content, language := "", version := 1 }
  else none

/-- Lookup in the registry room table, keyed by room id. -/
def lookupRoom (rooms : List (String × Room)) (roomID : String) : Option Room :=
  (rooms.find? (fun p => p.1 == roomID)).map (fun p => p.2)

/-- Mirrors RoomManager.GetOrCreateRoom: an existing room is returned as
is; otherwise GetDocument is tried and on any error CreateDocument makes a
fresh document titled Untitled Document with empty content under a new
uuid (freshId); only when that also fails does the call error out with no
room registered. On success the new room starts with empty membership and
is stored under the room key. -/
def getOrCreateRoom (sb : StoreBehavior) (freshId : String) (rooms : List (String × Room))
    (roomID : String) : Option (List (String × Room) × Room) :=
  match lookupRoom rooms roomID with
  | some r => some (rooms, r)
  | none =>
    let doc? :=
      match sb.getDoc roomID with
      | some d => some d
      | none => createDocument sb "Untitled Document" [] freshId
    match doc? with
    | none => none
    | some doc =>
      let r : Room := { id := roomID, document := doc, clients := [], broadcastQ := [] }
      some (rooms ++ [(roomID, r)], r)

/-- Sample client with server id a1. -/
def clientA : Client := { id := "a1", clientID := "", username := "alice" }

/-- Sample client with server id b2. -/
def clientB : Client := { id := "b2", clientID := "", username := "bob" }

/-- Sample client with server id u3, used as the unresponsive member. -/
def clientU : Client := { id := "u3", clientID := "", username := "uma" }

/-- Sample cached document with empty content and version 1. -/
def doc0 : Document := { id := "d0", title := "t", content := [], language := "", version := 1 }

/-- Sample room state holding the single member clientA with an empty open
Send channel and nothing pending on the Broadcast channel. -/
def state0 : RoomState :=
  { room := { id := "r1", document := doc0,
              clients := [ { client := clientA, send := [], sendClosed := false } ],
              broadcastQ := [] },
    closedIds := [] }

/-- Sample room state holding the two members clientA and clientB. -/
def stateAB : RoomState :=
  { room := { id := "r1", document := doc0,
              clients := [ { client := clientA, send := [], sendClosed := false },
                           { client := clientB, send := [], sendClosed := false } ],
              broadcastQ := [] },
    closedIds := [] }

/-- Completely full Send buffer (256 pending frames). -/
def fullQueue : List Frame := List.replicate sendCap Frame.pong

/-- Member whose Send buffer is kept full. -/
def memberFull : Member := { client := clientU, send := fullQueue, sendClosed := false }

/-- Delete operation whose range exceeds the empty document. -/
def delOp : Operation :=
  { type := "delete", position := 0, content := [], length := 1, clientID := "a1", timestamp := 0 }

/-- Operation payload whose sub-object carries none of the required keys,
as in the inbound frame with operation set to the empty JSON object. -/
def badPayload : OperationPayload := { type := none, position := none, content := none, length := none }

/-- Gateway on which every UpdateDocument call fails. -/
def failingGateway : Gateway := fun _ _ => none

/-- Insert operation appending one character at position 0 of an empty
document. -/
def insOp : Operation :=
  { type := "insert", position := 0, content := ['x'], length := 0, clientID := "a1", timestamp := 0 }

/-- Membership list holding one responsive member (clientA, empty queue)
and one unresponsive member (clientU, full queue). -/
def membersWithFull : List Member :=
  [ { client := clientA, send := [], sendClosed := false }, memberFull ]

/-- Sample inbound snapshot message with correlation number 7. -/
def snapMsg : Snapshot :=
  { type := "snapshot", content := ['z'], clientID := "", users := [], seq := 7, timestamp := 0 }

/-- Room state reached by registering clientA into a fresh room. -/
def state1 : RoomState := registerStep (initialState "r1" doc0) clientA

/-- Store on which every GetDocument call fails and CreateDocument
succeeds. -/
def sbCreateOk : StoreBehavior := { getDoc := fun _ => none, createSucceeds := true }

/-- Store on which every GetDocument call fails and CreateDocument fails
as well. -/
def sbCreateFails : StoreBehavior := { getDoc := fun _ => none, createSucceeds := false }

/-- Member ids of a membership list, in order. -/
def memberIds (ms : List Member) : List String := ms.map (fun m => m.client.id)

/-- Invariant of the room actor: no member of the membership map has a
closed Send channel (neither its own flag nor an entry in the close
history), member ids are pairwise distinct, and no channel has ever been
closed twice. -/
def RoomInv (s : RoomState) : Prop :=
  (∀ m ∈ s.room.clients, m.sendClosed = false ∧ m.client.id ∉ s.closedIds) ∧
  (memberIds s.room.clients).Nodup ∧ s.closedIds.Nodup

theorem broadcastFrame_open (msg : Frame) :
    ∀ ms : List Member, (∀ m ∈ ms, m.sendClosed = false) →
    broadcastFrame msg ms =
      some ((ms.filter hasSpace).map (enq msg),
            (ms.filter (fun m => !hasSpace m)).map (fun m => m.client.id))
  | [], _ => rfl
  | m :: rest, h => by
    have hm := h m (List.mem_cons_self m rest)
    have hrest := broadcastFrame_open msg rest (fun x hx => h x (List.mem_cons_of_mem m hx))
    by_cases hs : hasSpace m = true
    · simp [broadcastFrame, hm, hs, hrest, List.filter_cons]
    · simp [broadcastFrame, hm, hs, hrest, List.filter_cons]

theorem broadcastFrame_allSpace (msg : Frame) (ms : List Member)
    (h : ∀ m ∈ ms, m.sendClosed = false ∧ hasSpace m = true) :
    broadcastFrame msg ms = some (ms.map (enq msg), []) := by
  rw [broadcastFrame_open msg ms (fun m hm => (h m hm).1)]
  have h1 : ms.filter hasSpace = ms := List.filter_eq_self.mpr (fun m hm => (h m hm).2)
  have h2 : ms.filter (fun m => !hasSpace m) = [] := by
    apply List.filter_eq_nil_iff.mpr
    intro m hm
    simp [(h m hm).2]
  rw [h1, h2]
  simp

theorem broadcastExcept_open (msg : Frame) (excl : String) :
    ∀ ms : List Member, (∀ m ∈ ms, m.sendClosed = false) →
    broadcastExcept msg excl ms =
      some ((ms.filter (fun m => m.client.id == excl || hasSpace m)).map
              (fun m => if m.client.id == excl then m else enq msg m),
            (ms.filter (fun m => !(m.client.id == excl) && !hasSpace m)).map (fun m => m.client.id))
  | [], _ => rfl
  | m :: rest, h => by
    have hm := h m (List.mem_cons_self m rest)
    have hrest := broadcastExcept_open msg excl rest (fun x hx => h x (List.mem_cons_of_mem m hx))
    by_cases he : (m.client.id == excl) = true
    · have he2 : m.client.id = excl := by simpa using he
      simp [broadcastExcept, hm, he, he2, hrest, List.filter_cons]
    · have he2 : ¬ m.client.id = excl := by simpa using he
      by_cases hs : hasSpace m = true
      · simp [broadcastExcept, hm, he, he2, hs, hrest, List.filter_cons]
      · simp [broadcastExcept, hm, he, he2, hs, hrest, List.filter_cons]

theorem broadcastExcept_allSpace (msg : Frame) (excl : String) (ms : List Member)
    (h : ∀ m ∈ ms, m.sendClosed = false ∧ hasSpace m = true) :
    broadcastExcept msg excl ms =
      some (ms.map (fun m => if m.client.id == excl then m else enq msg m), []) := by
  rw [broadcastExcept_open msg excl ms (fun m hm => (h m hm).1)]
  have h1 : ms.filter (fun m => m.client.id == excl || hasSpace m) = ms :=
    List.filter_eq_self.mpr (fun m hm => by simp [(h m hm).2])
  have h2 : ms.filter (fun m => !(m.client.id == excl) && !hasSpace m) = [] := by
    apply List.filter_eq_nil_iff.mpr
    intro m hm
    simp [(h m hm).2]
  rw [h1, h2]
  simp

theorem sendAck_spec (msg : Frame) (target : String) :
    ∀ ms : List Member,
    (∀ m ∈ ms, m.client.id = target → m.sendClosed = false ∧ hasSpace m = true) →
    sendAck msg target ms =
      some (ms.map (fun m => if m.client.id == target then enq msg m else m), [])
  | [], _ => rfl
  | m :: rest, h => by
    have hrest := sendAck_spec msg target rest (fun x hx => h x (List.mem_cons_of_mem m hx))
    by_cases ht : (m.client.id == target) = true
    · have ht2 : m.client.id = target := by simpa using ht
      have hm := h m (List.mem_cons_self m rest) ht2
      simp [sendAck, hm.1, hm.2, ht, ht2, hrest]
    · have ht2 : ¬ m.client.id = target := by simpa using ht
      simp [sendAck, ht, ht2, hrest]

theorem broadcastMany_absorb (msgs : List Frame) :
    ∀ ms : List Member,
    (∀ m ∈ ms, m.sendClosed = false ∧ m.send.length + msgs.length ≤ sendCap) →
    broadcastMany msgs ms = some (ms.map (fun m => { m with send := m.send ++ msgs }), []) := by
  induction msgs with
  | nil =>
    intro ms _
    simp [broadcastMany]
  | cons msg rest ih =>
    intro ms h
    have hstep : broadcastFrame msg ms = some (ms.map (enq msg), []) := by
      apply broadcastFrame_allSpace
      intro m hm
      refine ⟨(h m hm).1, ?_⟩
      have := (h m hm).2
      simp only [List.length_cons] at this
      simp only [hasSpace, decide_eq_true_eq]
      omega
    have hrest : broadcastMany rest (ms.map (enq msg)) =
        some ((ms.map (enq msg)).map (fun m => { m with send := m.send ++ rest }), []) := by
      apply ih
      intro m hm
      rcases List.mem_map.mp hm with ⟨m0, hm0, rfl⟩
      have := h m0 hm0
      simp only [List.length_cons] at this
      constructor
      · exact this.1
      · simp only [enq, List.length_append, List.length_cons, List.length_nil]
        omega
    have hmaps : (ms.map (enq msg)).map (fun m => { m with send := m.send ++ rest }) =
        ms.map (fun m => { m with send := m.send ++ msg :: rest }) := by
      rw [List.map_map]
      apply List.map_congr_left
      intro m _
      simp [enq, Function.comp, List.append_assoc]
    simp only [broadcastMany, hstep, hrest, hmaps, List.nil_append]

theorem insertMember_fresh (ms : List Member) (m : Member)
    (h : ∀ x ∈ ms, x.client.id ≠ m.client.id) :
    insertMember ms m = ms ++ [m] := by
  unfold insertMember
  rw [if_neg]
  intro hany
  rcases List.any_eq_true.mp hany with ⟨x, hx, hbeq⟩
  exact h x hx (by simpa using hbeq)

theorem sweep_parts (ms : List Member) (closedIds : List String)
    (p q : Member → Bool) (f : Member → Member)
    (hid : ∀ m, (f m).client.id = m.client.id)
    (hopen : ∀ m, (f m).sendClosed = m.sendClosed)
    (hpq : ∀ m, p m = true → q m = true → False)
    (h1 : ∀ m ∈ ms, m.sendClosed = false ∧ m.client.id ∉ closedIds)
    (h2 : (memberIds ms).Nodup) (h3 : closedIds.Nodup) :
    (∀ x ∈ (ms.filter p).map f,
        x.sendClosed = false ∧
        x.client.id ∉ closedIds ++ (ms.filter q).map (fun m => m.client.id)) ∧
    (memberIds ((ms.filter p).map f)).Nodup ∧
    (closedIds ++ (ms.filter q).map (fun m => m.client.id)).Nodup := by
  have h2m : (ms.map (fun m : Member => m.client.id)).Nodup := h2
  have hinj := List.inj_on_of_nodup_map (f := fun m : Member => m.client.id) h2m
  have hkilledSub : ((ms.filter q).map (fun m => m.client.id)).Sublist
      (ms.map (fun m : Member => m.client.id)) :=
    (List.filter_sublist ms).map (fun m => m.client.id)
  have hkilledNodup : ((ms.filter q).map (fun m => m.client.id)).Nodup :=
    hkilledSub.nodup h2m
  have hkilledMem : ∀ a ∈ (ms.filter q).map (fun m => m.client.id),
      ∃ m ∈ ms, q m = true ∧ m.client.id = a := by
    intro a ha
    rcases List.mem_map.mp ha with ⟨m, hm, rfl⟩
    rcases List.mem_filter.mp hm with ⟨hmem, hq⟩
    exact ⟨m, hmem, hq, rfl⟩
  have hkeptIds : memberIds ((ms.filter p).map f) = (ms.filter p).map (fun m => m.client.id) := by
    unfold memberIds
    rw [List.map_map]
    apply List.map_congr_left
    intro m _
    simp [Function.comp, hid]
  refine ⟨?_, ?_, ?_⟩
  · intro x hx
    rcases List.mem_map.mp hx with ⟨m, hmf, rfl⟩
    rcases List.mem_filter.mp hmf with ⟨hmem, hp⟩
    refine ⟨by rw [hopen]; exact (h1 m hmem).1, ?_⟩
    rw [hid]
    intro hmemapp
    rcases List.mem_append.mp hmemapp with hcl | hkl
    · exact (h1 m hmem).2 hcl
    · rcases hkilledMem _ hkl with ⟨m2, hm2, hq2, hid2⟩
      have : m2 = m := hinj hm2 hmem hid2
      subst this
      exact hpq m2 hp hq2
  · rw [hkeptIds]
    exact (((List.filter_sublist ms).map (fun m => m.client.id)).nodup h2m : _)
  · refine h3.append hkilledNodup ?_
    intro a hacl hakl
    rcases hkilledMem _ hakl with ⟨m, hm, _, hid2⟩
    exact (h1 m hm).2 (hid2 ▸ hacl)

theorem roomInv_register (s : RoomState) (c : Client) (hf : FreshFor s c) (h : RoomInv s) :
    RoomInv (registerStep s c) := by
  rcases h with ⟨h1, h2, h3⟩
  rcases hf with ⟨hf1, hf2⟩
  have hins : insertMember s.room.clients { client := c, send := [], sendClosed := false } =
      s.room.clients ++ [{ client := c, send := [], sendClosed := false }] :=
    insertMember_fresh _ _ (fun x hx => hf1 x hx)
  unfold registerStep RoomInv
  simp only [hins]
  refine ⟨?_, ?_, h3⟩
  · intro m hm
    rcases List.mem_append.mp hm with hold | hnew
    · exact h1 m hold
    · rcases List.mem_singleton.mp hnew with rfl
      exact ⟨rfl, hf2⟩
  · unfold memberIds
    rw [List.map_append]
    refine h2.append (by simp) ?_
    intro a ha hb
    simp only [List.map_cons, List.map_nil, List.mem_singleton] at hb
    subst hb
    rcases List.mem_map.mp ha with ⟨m, hm, hid⟩
    exact hf1 m hm hid

theorem roomInv_unregister (s : RoomState) (c : Client) (h : RoomInv s) :
    RoomInv (unregisterStep s c) := by
  rcases h with ⟨h1, h2, h3⟩
  have h2m : (s.room.clients.map (fun m : Member => m.client.id)).Nodup := h2
  unfold unregisterStep RoomInv
  by_cases hpres : s.room.clients.any (fun x => x.client.id == c.id) = true
  · rcases List.any_eq_true.mp hpres with ⟨w, hw, hwid⟩
    have hwid2 : w.client.id = c.id := by simpa using hwid
    have hcnotcl : c.id ∉ s.closedIds := hwid2 ▸ (h1 w hw).2
    simp only [hpres, if_true]
    refine ⟨?_, ?_, ?_⟩
    · intro m hm
      rcases List.mem_filter.mp hm with ⟨hmem, hne⟩
      have hne2 : m.client.id ≠ c.id := by simpa using hne
      refine ⟨(h1 m hmem).1, ?_⟩
      intro hmemapp
      rcases List.mem_append.mp hmemapp with hcl | hsing
      · exact (h1 m hmem).2 hcl
      · exact hne2 (List.mem_singleton.mp hsing)
    · exact (((List.filter_sublist s.room.clients).map (fun m => m.client.id)).nodup h2m : _)
    · refine h3.append (by simp) ?_
      intro a ha hb
      rcases List.mem_singleton.mp hb with rfl
      exact hcnotcl ha
  · simp only [hpres, if_false]
    exact ⟨h1, h2, h3⟩

theorem roomInv_deliver (s t : RoomState) (hstep : deliverStep s = some t) (h : RoomInv s) :
    RoomInv t := by
  rcases h with ⟨h1, h2, h3⟩
  cases hq : s.room.broadcastQ with
  | nil =>
    simp only [deliverStep, hq] at hstep
    cases hstep
    exact ⟨h1, h2, h3⟩
  | cons msg rest =>
    simp only [deliverStep, hq,
      broadcastFrame_open msg s.room.clients (fun m hm => (h1 m hm).1)] at hstep
    cases hstep
    have parts := sweep_parts s.room.clients s.closedIds hasSpace (fun m => !hasSpace m)
      (enq msg) (fun m => rfl) (fun m => rfl)
      (fun m hp hq2 => by simp [hp] at hq2) h1 h2 h3
    exact ⟨parts.1, parts.2.1, parts.2.2⟩

theorem roomInv_broadcastOp (s t : RoomState) (op : Operation) (excl : String)
    (hstep : broadcastOpStep s op excl = some t) (h : RoomInv s) : RoomInv t := by
  rcases h with ⟨h1, h2, h3⟩
  unfold broadcastOpStep at hstep
  rw [broadcastExcept_open (Frame.operationFrame op) excl s.room.clients
    (fun m hm => (h1 m hm).1)] at hstep
  simp only [Option.map_some] at hstep
  cases hstep
  have parts := sweep_parts s.room.clients s.closedIds
    (fun m => m.client.id == excl || hasSpace m)
    (fun m => !(m.client.id == excl) && !hasSpace m)
    (fun m => if m.client.id == excl then m else enq (Frame.operationFrame op) m)
    (fun m => by by_cases hc : (m.client.id == excl) = true <;> simp [hc, enq])
    (fun m => by by_cases hc : (m.client.id == excl) = true <;> simp [hc, enq])
    (fun m hp hq2 => by
      by_cases hc : (m.client.id == excl) = true <;> simp [hc] at hp hq2
      exact absurd hp (by simp [hq2]))
    h1 h2 h3
  exact ⟨parts.1, parts.2.1, parts.2.2⟩

theorem unregister_absent (s : RoomState) (c : Client)
    (h : ∀ m ∈ s.room.clients, m.client.id ≠ c.id) :
    (unregisterStep s c).room.clients = s.room.clients ∧
    (unregisterStep s c).closedIds = s.closedIds := by
  have hany : s.room.clients.any (fun x => x.client.id == c.id) = false := by
    rw [List.any_eq_false]
    intro x hx
    simp [h x hx]
  unfold unregisterStep
  simp [hany]

theorem contentAfter_insert_append (content : List Char) (op : Operation)
    (htype : op.type = "insert") (hge : (content.length : Int) ≤ op.position) :
    contentAfter content op = some (content ++ op.content) := by
  unfold contentAfter
  rw [htype, if_pos rfl, if_pos hge]

theorem contentAfter_delete_ignored (content : List Char) (op : Operation)
    (htype : op.type = "delete") (hrange : (content.length : Int) < op.position + op.length) :
    contentAfter content op = some content := by
  unfold contentAfter
  rw [htype, if_neg (by decide), if_pos rfl, if_neg (by omega)]

/-- C2 counterexample: on the empty document a delete of length 1 at
position 0 has position+length exceeding the content length, the content
is indeed unchanged, but the version counter moves from 1 to 2, so the
operation is not a no-op as the claim states. -/
theorem C2_counterexample :
    delOp.type = "delete" ∧
    (doc0.content.length : Int) < delOp.position + delOp.length ∧
    updateDocumentContent doc0 delOp = MutResult.ok { doc0 with version := doc0.version + 1 } ∧
    updateDocumentContent doc0 delOp ≠ MutResult.ok doc0 := by
  refine ⟨rfl, by decide, by decide, by decide⟩

/-- C2 amended: a delete whose range exceeds the current content leaves
the content unchanged, but handlers.updateDocumentContent still
increments the version counter (the Go Version++ sits after the switch
and runs unconditionally). -/
theorem C2_out_of_range_delete (doc : Document) (op : Operation)
    (htype : op.type = "delete")
    (hrange : (doc.content.length : Int) < op.position + op.length) :
    updateDocumentContent doc op = MutResult.ok { doc with version := doc.version + 1 } := by
  unfold updateDocumentContent
  rw [contentAfter_delete_ignored doc.content op htype hrange]

/-- C2 witness: the amended theorem applied to the empty document and the
out-of-range delete. -/
theorem C2_witness :
    delOp.type = "delete" ∧
    (doc0.content.length : Int) < delOp.position + delOp.length ∧
    updateDocumentContent doc0 delOp = MutResult.ok { doc0 with version := doc0.version + 1 } :=
  ⟨rfl, by decide, C2_out_of_range_delete doc0 delOp rfl (by decide)⟩

/-- C5: inserting at position = len(content) and inserting at any
position > len(content) take the same append branch of
handlers.updateDocumentContent, and both produce the content followed by
the inserted text, with the version bumped once. -/
theorem C5_insert_clamp (doc : Document) (op : Operation) (p : Int)
    (htype : op.type = "insert") (hpos : op.position = (doc.content.length : Int))
    (hp : (doc.content.length : Int) < p) :
    updateDocumentContent doc op = updateDocumentContent doc { op with position := p } ∧
    updateDocumentContent doc op =
      MutResult.ok { doc with content := doc.content ++ op.content, version := doc.version + 1 } := by
  have e1 : contentAfter doc.content op = some (doc.content ++ op.content) :=
    contentAfter_insert_append doc.content op htype (by omega)
  have e2 : contentAfter doc.content { op with position := p } =
      some (doc.content ++ op.content) :=
    contentAfter_insert_append doc.content { op with position := p } htype (le_of_lt hp)
  constructor
  · unfold updateDocumentContent
    rw [e1, e2]
  · unfold updateDocumentContent
    rw [e1]

/-- C5 witness: the theorem applied to the empty document, the sample
insert at position 0 = length, and the larger position 5. -/
theorem C5_witness :
    insOp.type = "insert" ∧ insOp.position = (doc0.content.length : Int) ∧
    (doc0.content.length : Int) < 5 ∧
    updateDocumentContent doc0 insOp = updateDocumentContent doc0 { insOp with position := 5 } :=
  ⟨rfl, by decide, by decide, (C5_insert_clamp doc0 insOp 5 rfl (by decide) (by decide)).1⟩

/-- C3 evidence of the code bug: the inbound frame whose operation field
is the empty JSON object (all four required sub-fields missing) makes
handlers.handleOperation hit an unchecked type assertion, which panics;
the deferred recover in readPump then unregisters the client and closes
the connection, so the frame is not merely dropped with the connection
surviving. In addition, handlers.handleInit lacks a return after its
validity check, so a malformed init frame is not aborted: the client
identity is overwritten with zero values and the init-ok broadcast value
is still produced. -/
theorem C3_malformed_frames :
    handleOperation state0 clientA (some badPayload) 0 = OpHandlerResult.panicked ∧
    handleInit clientA none none =
      ({ clientA with clientID := "", username := "" }, { id := "", username := "" }) :=
  ⟨rfl, rfl⟩

/-- C7 counterexample: the application-level pong reply of readPump is a
plain blocking channel send; on a member whose outbound queue holds 256
pending frames (full) it blocks, rather than dropping the frame or
killing the member. -/
theorem C7_counterexample :
    memberFull.sendClosed = false ∧ memberFull.send.length = sendCap ∧
    pongReply memberFull = ChanSend.blocked := by
  refine ⟨rfl, ?_, ?_⟩
  · simp [memberFull, fullQueue]
  · simp [pongReply, chanSendBlocking, memberFull, fullQueue]

/-- C7 amended: enqueues on the room broadcast path are non-blocking
(every open member is either delivered to or killed inside the same
sweep), but the read pump's application-level pong reply is a plain
channel send that blocks whenever the member's outbound queue is full. -/
theorem C7_enqueue_policy :
    (∀ (msg : Frame) (ms : List Member), (∀ m ∈ ms, m.sendClosed = false) →
      ∃ kept killed, broadcastFrame msg ms = some (kept, killed) ∧
        ∀ m ∈ ms, (hasSpace m = true ∧ enq msg m ∈ kept) ∨
                  (hasSpace m = false ∧ m.client.id ∈ killed)) ∧
    (∀ m : Member, m.sendClosed = false → sendCap ≤ m.send.length →
      pongReply m = ChanSend.blocked) := by
  constructor
  · intro msg ms hopen
    refine ⟨_, _, broadcastFrame_open msg ms hopen, ?_⟩
    intro m hm
    by_cases hs : hasSpace m = true
    · exact Or.inl ⟨hs, List.mem_map_of_mem _ (List.mem_filter.mpr ⟨hm, hs⟩)⟩
    · refine Or.inr ⟨by simpa using hs, ?_⟩
      exact List.mem_map_of_mem _ (List.mem_filter.mpr ⟨hm, by simp [hs]⟩)
  · intro m hopen hfull
    unfold pongReply chanSendBlocking
    rw [hopen]
    rw [if_neg (by simp)]
    rw [if_neg (by omega)]

/-- C7 witness: the amended theorem applied to the member with the full
queue. -/
theorem C7_witness : pongReply memberFull = ChanSend.blocked :=
  C7_enqueue_policy.2 memberFull rfl (by simp [memberFull, fullQueue])

/-- C10: when the registry has no room for the key and the gateway lookup
fails, the room is still created and registered under the key, backed by
a freshly created document with a new uuid (distinct from the room key),
title Untitled Document and empty content; and when that creation also
fails the call returns an error with no room registered. -/
theorem C10_create_fallback (sb : StoreBehavior) (freshId : String)
    (rooms : List (String × Room)) (roomID : String)
    (hlook : lookupRoom rooms roomID = none)
    (hget : sb.getDoc roomID = none)
    (hfresh : freshId ≠ roomID) :
    (sb.createSucceeds = true →
      getOrCreateRoom sb freshId rooms roomID =
        some (rooms ++ [(roomID,
          { id := roomID,
            document := { id := freshId, title := "Untitled Document", content := [],
                          language := "", version := 1 },
            clients := [], broadcastQ := [] })],
          { id := roomID,
            document := { id := freshId, title := "Untitled Document", content := [],
                          language := "", version := 1 },
            clients := [], broadcastQ := [] }) ∧
      freshId ≠ roomID) ∧
    (sb.createSucceeds = false → getOrCreateRoom sb freshId rooms roomID = none) := by
  constructor
  · intro hc
    refine ⟨?_, hfresh⟩
    unfold getOrCreateRoom createDocument
    rw [hlook, hget, hc]
    simp
  · intro hc
    unfold getOrCreateRoom createDocument
    rw [hlook, hget, hc]
    simp

/-- C8: for both the metadata and the snapshot mutation, when every
UpdateDocument call on the gateway fails, the cached document keeps its
replaced fields and its incremented version (nothing is rolled back), and
the broadcast to the room members still proceeds: every member except the
originator has the update frame appended to its queue (and for snapshots
the originator receives the ack). -/
theorem C8_persistence_swallowed (gw : Gateway) (s : RoomState) (c : Client)
    (title language : String) (msg : Snapshot) (now : Int)
    (hgw : ∀ u : DocumentUpdate, gw s.room.id u = none)
    (hms : ∀ m ∈ s.room.clients, m.sendClosed = false ∧ hasSpace m = true) :
    (handleDocUpdate gw s c (some title) (some language) now =
      PipelineResult.ok
        { room := { s.room with
                      document := { s.room.document with
                                      title := title, language := language,
                                      version := s.room.document.version + 1 },
                      clients := s.room.clients.map (fun m =>
                        if m.client.id == c.id then m
                        else enq (Frame.metadataFrame
                          { type := "document_update", title := title, language := language,
                            clientID := c.id, timestamp := now }) m) },
          closedIds := s.closedIds }) ∧
    (handleSnapshot gw s c msg now =
      PipelineResult.ok
        { room := { s.room with
                      document := { s.room.document with
                                      content := msg.content,
                                      version := s.room.document.version + 1 },
                      clients := s.room.clients.map (fun m =>
                        if m.client.id == c.id then
                          enq (Frame.ackFrame
                            { type := "ack", event := "snapshot", seq := msg.seq,
                              timestamp := now }) m
                        else
                          enq (Frame.snapshotFrame
                            { type := "snapshot", content := msg.content, clientID := c.clientID,
                              users := msg.users, seq := msg.seq, timestamp := now }) m) },
          closedIds := s.closedIds }) := by
  constructor
  · have hbm := broadcastExcept_allSpace (Frame.metadataFrame
        { type := "document_update", title := title, language := language,
          clientID := c.id, timestamp := now }) c.id s.room.clients hms
    simp only [handleDocUpdate, hbm, updateDocumentMetadata, hgw, List.append_nil]
  · have hbs := broadcastExcept_allSpace (Frame.snapshotFrame
        { type := "snapshot", content := msg.content, clientID := c.clientID,
          users := msg.users, seq := msg.seq, timestamp := now }) c.id s.room.clients hms
    have hack : ∀ m ∈ s.room.clients.map (fun m =>
        if m.client.id == c.id then m
        else enq (Frame.snapshotFrame
          { type := "snapshot", content := msg.content, clientID := c.clientID,
            users := msg.users, seq := msg.seq, timestamp := now }) m),
        m.client.id = c.id → m.sendClosed = false ∧ hasSpace m = true := by
      intro m hm hid
      rcases List.mem_map.mp hm with ⟨m0, hm0, rfl⟩
      by_cases h0 : (m0.client.id == c.id) = true
      · simpa [h0] using hms m0 hm0
      · exfalso
        apply (by simpa using h0 : ¬ m0.client.id = c.id)
        simpa [h0, enq] using hid
    have hsa := sendAck_spec (Frame.ackFrame
        { type := "ack", event := "snapshot", seq := msg.seq, timestamp := now }) c.id
      (s.room.clients.map (fun m =>
        if m.client.id == c.id then m
        else enq (Frame.snapshotFrame
          { type := "snapshot", content := msg.content, clientID := c.clientID,
            users := msg.users, seq := msg.seq, timestamp := now }) m)) hack
    simp only [handleSnapshot, updateDocumentSnapshot, hgw, hbs, hsa,
      List.append_nil, List.map_map]
    refine congrArg PipelineResult.ok ?_
    refine congrArg (fun cl =>
      ({ room := { s.room with
                     document := { s.room.document with
                                     content := msg.content,
                                     version := s.room.document.version + 1 },
                     clients := cl },
         closedIds := s.closedIds } : RoomState)) ?_
    apply List.map_congr_left
    intro m _
    by_cases h0 : (m.client.id == c.id) = true
    · simp [Function.comp, h0]
    · simp [Function.comp, h0, enq]

/-- C8 witness: the metadata conjunct of the theorem applied to the
two-member room, the originator clientA and the gateway on which every
persistence call fails. -/
theorem C8_witness :
    handleDocUpdate failingGateway stateAB clientA (some "T2") (some "go") 0 =
      PipelineResult.ok
        { room := { stateAB.room with
                      document := { stateAB.room.document with
                                      title := "T2", language := "go",
                                      version := stateAB.room.document.version + 1 },
                      clients := stateAB.room.clients.map (fun m =>
                        if m.client.id == clientA.id then m
                        else enq (Frame.metadataFrame
                          { type := "document_update", title := "T2", language := "go",
                            clientID := clientA.id, timestamp := 0 }) m) },
          closedIds := stateAB.closedIds } :=
  (C8_persistence_swallowed failingGateway stateAB clientA "T2" "go" snapMsg 0
    (fun _ => rfl) (by decide)).1

/-- C6: a valid operation frame is broadcast as an operation envelope that
echoes the kind, position, content and length of the inbound payload, is
stamped with the server-generated connection id of the originator and the
server-side timestamp, and is appended to the queue of every current
member except the originator; the cached document is then mutated by the
same operation. -/
theorem C6_operation_broadcast (s : RoomState) (c : Client) (t : String) (pos : Int)
    (cont : List Char) (len : Int) (now : Int) (newContent : List Char)
    (hms : ∀ m ∈ s.room.clients, m.sendClosed = false ∧ hasSpace m = true)
    (happly : contentAfter s.room.document.content
      { type := t, position := pos, content := cont, length := len,
        clientID := c.id, timestamp := now } = some newContent) :
    handleOperation s c
      (some { type := some t, position := some pos, content := some cont, length := some len })
      now =
      OpHandlerResult.ok
        { room := { s.room with
                      document := { s.room.document with
                                      content := newContent,
                                      version := s.room.document.version + 1 },
                      clients := s.room.clients.map (fun m =>
                        if m.client.id == c.id then m
                        else enq (Frame.operationFrame
                          { type := t, position := pos, content := cont, length := len,
                            clientID := c.id, timestamp := now }) m) },
          closedIds := s.closedIds }
        { type := t, position := pos, content := cont, length := len,
          clientID := c.id, timestamp := now } := by
  have hb := broadcastExcept_allSpace (Frame.operationFrame
      { type := t, position := pos, content := cont, length := len,
        clientID := c.id, timestamp := now }) c.id s.room.clients hms
  simp only [handleOperation, broadcastOpStep, hb, Option.map_some', updateDocumentContent,
    happly, List.append_nil]

/-- C6 witness: the theorem applied to the two-member room and an insert
of one character by clientA; clientB receives the stamped echo, clientA
does not. -/
theorem C6_witness :
    handleOperation stateAB clientA
      (some { type := some "insert", position := some 0, content := some ['x'],
              length := some 0 }) 5 =
      OpHandlerResult.ok
        { room := { stateAB.room with
                      document := { stateAB.room.document with
                                      content := ['x'],
                                      version := stateAB.room.document.version + 1 },
                      clients := stateAB.room.clients.map (fun m =>
                        if m.client.id == clientA.id then m
                        else enq (Frame.operationFrame
                          { type := "insert", position := 0, content := ['x'], length := 0,
                            clientID := clientA.id, timestamp := 5 }) m) },
          closedIds := stateAB.closedIds }
        { type := "insert", position := 0, content := ['x'], length := 0,
          clientID := clientA.id, timestamp := 5 } :=
  C6_operation_broadcast stateAB clientA "insert" 0 ['x'] 0 5 ['x'] (by decide) (by decide)

theorem filter_key_singleton :
    ∀ ms : List Member, ∀ u : Member, u ∈ ms → (memberIds ms).Nodup →
    ms.filter (fun m => m.client.id == u.client.id) = [u]
  | [], u, hu, _ => absurd hu (List.not_mem_nil u)
  | m :: rest, u, hu, hnd => by
    have hnd2 : (memberIds rest).Nodup := (List.nodup_cons.mp hnd).2
    have hhead : m.client.id ∉ memberIds rest := (List.nodup_cons.mp hnd).1
    rcases List.mem_cons.mp hu with rfl | hurest
    · have hrest : rest.filter (fun x => x.client.id == u.client.id) = [] := by
        apply List.filter_eq_nil_iff.mpr
        intro x hx
        simp only [beq_iff_eq]
        intro hxm
        exact hhead (hxm ▸ List.mem_map_of_mem (fun y => y.client.id) hx)
      simp [List.filter_cons, hrest]
    · have hne : m.client.id ≠ u.client.id := by
        intro hmu
        exact hhead (hmu ▸ List.mem_map_of_mem (fun y => y.client.id) hurest)
      have hrest := filter_key_singleton rest u hurest hnd2
      simp [List.filter_cons, hne, hrest]

/-- C4: (a) one Broadcast sweep gives every current member exactly one of
two outcomes: a member with queue space is kept with the frame appended
and is not killed, a member with a full queue is killed (its id is in the
close list and no surviving member carries its id); (b) running N
broadcasts against a membership with exactly one full member removes that
member during the first sweep (the close list of the whole run is exactly
its id) while every other member survives with all N frames appended. -/
theorem C4_broadcast_dichotomy :
    (∀ (msg : Frame) (ms : List Member),
      (∀ m ∈ ms, m.sendClosed = false) → (memberIds ms).Nodup →
      ∃ kept killed, broadcastFrame msg ms = some (kept, killed) ∧
        ∀ m ∈ ms,
          (hasSpace m = true ∧ enq msg m ∈ kept ∧ m.client.id ∉ killed) ∨
          (hasSpace m = false ∧ m.client.id ∈ killed ∧
            ∀ m2 ∈ kept, m2.client.id ≠ m.client.id)) ∧
    (∀ (msgs : List Frame) (ms : List Member) (u : Member),
      u ∈ ms → (∀ m ∈ ms, m.sendClosed = false) → (memberIds ms).Nodup →
      hasSpace u = false →
      (∀ m ∈ ms, m.client.id ≠ u.client.id → m.send.length + msgs.length ≤ sendCap) →
      msgs ≠ [] →
      broadcastMany msgs ms =
        some ((ms.filter (fun m => !(m.client.id == u.client.id))).map
                (fun m => { m with send := m.send ++ msgs }),
              [u.client.id])) := by
  constructor
  · intro msg ms hopen hnd
    have h2m : (ms.map (fun m : Member => m.client.id)).Nodup := hnd
    have hinj := List.inj_on_of_nodup_map (f := fun m : Member => m.client.id) h2m
    refine ⟨_, _, broadcastFrame_open msg ms hopen, ?_⟩
    intro m hm
    by_cases hs : hasSpace m = true
    · refine Or.inl ⟨hs, List.mem_map_of_mem _ (List.mem_filter.mpr ⟨hm, hs⟩), ?_⟩
      intro hkl
      rcases List.mem_map.mp hkl with ⟨m2, hm2f, hid2⟩
      rcases List.mem_filter.mp hm2f with ⟨hm2, hs2⟩
      have : m2 = m := hinj hm2 hm hid2
      subst this
      simp [hs] at hs2
    · refine Or.inr ⟨by simpa using hs, ?_, ?_⟩
      · exact List.mem_map_of_mem _ (List.mem_filter.mpr ⟨hm, by simp [hs]⟩)
      · intro m2 hm2 hideq
        rcases List.mem_map.mp hm2 with ⟨m3, hm3f, rfl⟩
        rcases List.mem_filter.mp hm3f with ⟨hm3, hs3⟩
        have hid3 : m3.client.id = m.client.id := by simpa [enq] using hideq
        have : m3 = m := hinj hm3 hm hid3
        subst this
        exact hs hs3
  · intro msgs ms u hu hopen hnd hufull hothers hne
    cases msgs with
    | nil => exact absurd rfl hne
    | cons msg rest =>
      have h2m : (ms.map (fun m : Member => m.client.id)).Nodup := hnd
      have hinj := List.inj_on_of_nodup_map (f := fun m : Member => m.client.id) h2m
      have hcong : ∀ m ∈ ms, hasSpace m = !(m.client.id == u.client.id) := by
        intro m hm
        by_cases hid : m.client.id = u.client.id
        · have : m = u := hinj hm hu hid
          subst this
          simp [hufull]
        · have hlen := hothers m hm hid
          simp only [List.length_cons] at hlen
          have : hasSpace m = true := by
            simp only [hasSpace, decide_eq_true_eq]
            omega
          simp [this, hid]
      have hfno : ms.filter hasSpace = ms.filter (fun m => !(m.client.id == u.client.id)) :=
        List.filter_congr hcong
      have hfyes : ms.filter (fun m => !hasSpace m) =
          ms.filter (fun m => m.client.id == u.client.id) := by
        apply List.filter_congr
        intro m hm
        simp [hcong m hm]
      have hstep : broadcastFrame msg ms =
          some ((ms.filter (fun m => !(m.client.id == u.client.id))).map (enq msg),
                [u.client.id]) := by
        rw [broadcastFrame_open msg ms hopen, hfno, hfyes,
          filter_key_singleton ms u hu hnd]
        rfl
      have habsorb : broadcastMany rest
          ((ms.filter (fun m => !(m.client.id == u.client.id))).map (enq msg)) =
          some (((ms.filter (fun m => !(m.client.id == u.client.id))).map (enq msg)).map
                  (fun m => { m with send := m.send ++ rest }), []) := by
        apply broadcastMany_absorb
        intro m hm
        rcases List.mem_map.mp hm with ⟨m0, hm0f, rfl⟩
        rcases List.mem_filter.mp hm0f with ⟨hm0, hid0⟩
        have hid0' : m0.client.id ≠ u.client.id := by simpa using hid0
        have hlen := hothers m0 hm0 hid0'
        simp only [List.length_cons] at hlen
        refine ⟨hopen m0 hm0, ?_⟩
        simp only [enq, List.length_append, List.length_cons, List.length_nil]
        omega
      have hmaps : ((ms.filter (fun m => !(m.client.id == u.client.id))).map (enq msg)).map
            (fun m => { m with send := m.send ++ rest }) =
          (ms.filter (fun m => !(m.client.id == u.client.id))).map
            (fun m => { m with send := m.send ++ msg :: rest }) := by
        rw [List.map_map]
        apply List.map_congr_left
        intro m _
        simp [enq, Function.comp, List.append_assoc]
      simp only [broadcastMany, hstep, habsorb, hmaps, List.append_nil]

/-- C4 witness: part (b) of the theorem applied to the membership holding
the responsive clientA and the unresponsive clientU (full queue), with a
single broadcast. -/
theorem C4_witness :
    broadcastMany [Frame.pong] membersWithFull =
      some ((membersWithFull.filter
               (fun m => !(m.client.id == memberFull.client.id))).map
              (fun m => { m with send := m.send ++ [Frame.pong] }),
            [memberFull.client.id]) := by
  apply C4_broadcast_dichotomy.2
  · simp [membersWithFull]
  · intro m hm
    rcases (by simpa [membersWithFull] using hm :
        m = { client := clientA, send := [], sendClosed := false } ∨ m = memberFull) with rfl | rfl
    · rfl
    · rfl
  · decide
  · have hlen : memberFull.send.length = sendCap := by
      simp [memberFull, fullQueue]
    simp [hasSpace, hlen]
  · intro m hm hne
    rcases (by simpa [membersWithFull] using hm :
        m = { client := clientA, send := [], sendClosed := false } ∨ m = memberFull) with rfl | rfl
    · simp [sendCap]
    · exact absurd rfl hne
  · simp

/-- C9: every reachable room state satisfies the membership invariant (no
member has a closed Send channel, member ids are distinct, and no channel
was ever closed twice), and processing Unregister for a client absent
from the membership leaves both the membership and the close history
unchanged. -/
theorem C9_membership_invariant (s : RoomState) (hreach : Reachable s) :
    RoomInv s ∧
    (∀ c : Client, (∀ m ∈ s.room.clients, m.client.id ≠ c.id) →
      (unregisterStep s c).room.clients = s.room.clients ∧
      (unregisterStep s c).closedIds = s.closedIds) := by
  constructor
  · induction hreach with
    | init roomID doc =>
      refine ⟨?_, ?_, ?_⟩ <;> simp [initialState, memberIds]
    | register hr hf ih => exact roomInv_register _ _ hf ih
    | unregister c hr ih => exact roomInv_unregister _ c ih
    | deliver hr hstep ih => exact roomInv_deliver _ _ hstep ih
    | broadcastOp op excl hr hstep ih => exact roomInv_broadcastOp _ _ op excl hstep ih
  · intro c hc
    exact unregister_absent s c hc

/-- C9 witness: the invariant at the state reached by registering clientA
into a fresh room. -/
theorem C9_witness : RoomInv state1 :=
  (C9_membership_invariant state1
    (Reachable.register (Reachable.init "r1" doc0)
      ⟨by simp [initialState], by simp [initialState]⟩)).1

/-- C1 counterexample: registering clientB into the room that holds
clientA, then letting the actor process the pending broadcast, leaves
clientB's entire outbound queue equal to the single user_joined event
about clientB itself. So the joiner is not excluded from the user_joined
event, and no snapshot frame is ever sent to the joiner, contradicting
the claim on both counts. -/
theorem C1_counterexample :
    deliverStep (registerStep state0 clientB) =
      some { room := { state0.room with
                         clients :=
                           [ { client := clientA,
                               send := [Frame.userJoined { id := "b2", username := "bob" }],
                               sendClosed := false },
                             { client := clientB,
                               send := [Frame.userJoined { id := "b2", username := "bob" }],
                               sendClosed := false } ],
                         broadcastQ := [] },
             closedIds := [] } ∧
    Frame.isSnapshot (Frame.userJoined { id := "b2", username := "bob" }) = false := by
  exact ⟨by decide, rfl⟩

/-- C1 amended: processing Register(connection) inserts the new member
(with a fresh empty queue, no snapshot being sent to it on this path) and
enqueues a user_joined event on the room Broadcast channel; when that
broadcast is processed, the event is delivered to every current member
including the joiner. -/
theorem C1_register_behavior (s : RoomState) (c : Client)
    (hfresh : ∀ m ∈ s.room.clients, m.client.id ≠ c.id)
    (hq : s.room.broadcastQ = [])
    (hms : ∀ m ∈ s.room.clients, m.sendClosed = false ∧ hasSpace m = true) :
    (registerStep s c).room.clients =
      s.room.clients ++ [{ client := c, send := [], sendClosed := false }] ∧
    (registerStep s c).room.broadcastQ =
      [Frame.userJoined { id := c.id, username := c.username }] ∧
    Frame.isSnapshot (Frame.userJoined { id := c.id, username := c.username }) = false ∧
    deliverStep (registerStep s c) =
      some { room := { s.room with
                         clients := (s.room.clients ++
                             [({ client := c, send := [], sendClosed := false } : Member)]).map
                           (enq (Frame.userJoined { id := c.id, username := c.username })),
                         broadcastQ := [] },
             closedIds := s.closedIds } := by
  have hins := insertMember_fresh s.room.clients
    { client := c, send := [], sendClosed := false } (fun x hx => hfresh x hx)
  have h1 : (registerStep s c).room.clients =
      s.room.clients ++ [{ client := c, send := [], sendClosed := false }] := by
    simp [registerStep, hins]
  have h2 : (registerStep s c).room.broadcastQ =
      [Frame.userJoined { id := c.id, username := c.username }] := by
    simp [registerStep, hq]
  have hall : ∀ m ∈ s.room.clients ++ [{ client := c, send := [], sendClosed := false }],
      m.sendClosed = false ∧ hasSpace m = true := by
    intro m hm
    rcases List.mem_append.mp hm with hold | hnew
    · exact hms m hold
    · rcases List.mem_singleton.mp hnew with rfl
      exact ⟨rfl, by simp [hasSpace, sendCap]⟩
  have hbf := broadcastFrame_allSpace (Frame.userJoined { id := c.id, username := c.username })
    (s.room.clients ++ [{ client := c, send := [], sendClosed := false }]) hall
  refine ⟨h1, h2, rfl, ?_⟩
  simp only [deliverStep, h2, h1, hbf, registerStep, hins, hq, Option.map_some',
    List.append_nil, List.nil_append]

/-- C1 witness: the amended theorem applied to the single-member room and
the fresh clientB. -/
theorem C1_witness :
    (registerStep state0 clientB).room.clients =
      state0.room.clients ++ [{ client := clientB, send := [], sendClosed := false }] ∧
    (registerStep state0 clientB).room.broadcastQ =
      [Frame.userJoined { id := clientB.id, username := clientB.username }] ∧
    Frame.isSnapshot (Frame.userJoined { id := clientB.id, username := clientB.username }) = false ∧
    deliverStep (registerStep state0 clientB) =
      some { room := { state0.room with
                         clients := (state0.room.clients ++
                             [({ client := clientB, send := [], sendClosed := false } : Member)]).map
                           (enq (Frame.userJoined
                             { id := clientB.id, username := clientB.username })),
                         broadcastQ := [] },
             closedIds := state0.closedIds } :=
  C1_register_behavior state0 clientB (by decide) rfl (by decide)

/-- C10 witness: the theorem applied to the empty registry, a store whose
lookup fails and whose create succeeds, and a fresh uuid distinct from
the room key. -/
theorem C10_witness :
    lookupRoom [] "room1" = none ∧ sbCreateOk.getDoc "room1" = none ∧
    getOrCreateRoom sbCreateOk "doc-uuid" [] "room1" =
      some ([("room1",
        { id := "room1",
          document := { id := "doc-uuid", title := "Untitled Document", content := [],
                        language := "", version := 1 },
          clients := [], broadcastQ := [] })],
        { id := "room1",
          document := { id := "doc-uuid", title := "Untitled Document", content := [],
                        language := "", version := 1 },
          clients := [], broadcastQ := [] }) :=
  ⟨rfl, rfl,
    ((C10_create_fallback sbCreateOk "doc-uuid" [] "room1" rfl rfl (by decide)).1 rfl).1⟩

end Codellab
